import Mathlib

/-
Verification of the Alibaba cloud-info provider
(internal/cloudinfo/providers/alibaba/cloudinfo.go).

The Go code is shallowly embedded: the SDK client (`ProcessCommonRequest`
plus `json.Unmarshal`) is modelled as an environment of deterministic
oracles, one per request kind; a request can fail at the transport level
(`ProcessCommonRequest` returns an error), fail to unmarshal, or yield a
decoded response.  Go errors are modelled as a message string plus the
emperror context labels.  Go `float64` price values are modelled as
rationals (no float arithmetic is performed by the code, prices are only
carried around).  Go map writes are modelled by consing onto an
association list, read through `List.lookup` (first match), which has the
same observable lookup semantics; a Go map read of a missing key yields
the zero value, modelled by an explicit default.
-/

set_option maxRecDepth 4000

namespace Alibaba

/-- A Go error: its rendered message and its emperror context values
(only string labels occur in this code). -/
structure GoError where
  msg : String
  labels : List String
deriving DecidableEq

/-- emperror.Wrap: prefixes the message, keeps the context. -/
def wrap (pre : String) (e : GoError) : GoError :=
  ⟨pre ++ ": " ++ e.msg, e.labels⟩

/-- Outcome of one SDK call followed by json.Unmarshal: transport error
from ProcessCommonRequest, unmarshal error, or a decoded response. -/
inductive RawResult (α : Type) where
  | reqErr (e : GoError)
  | parseErr (e : GoError)
  | ok (a : α)
deriving DecidableEq

/-- bssopenapi.GetPayAsYouGoPriceResponse, restricted to the fields the
code reads: Success, Code, and the OriginalCost of each ModuleDetail. -/
structure PayAsYouGoResponse where
  success : Bool
  code : String
  moduleDetails : List Rat
deriving DecidableEq

/-- One entry of ecs.DescribeSpotPriceHistoryResponse.SpotPrices.SpotPriceType. -/
structure SpotPriceType where
  zoneId : String
  spotPrice : Rat
deriving DecidableEq

/-- ecs.Zone, restricted to the fields the code reads: ZoneId,
AvailableInstanceTypes.InstanceTypes, and for each entry of
AvailableResources.ResourcesInfo its InstanceTypes.SupportedInstanceType list. -/
structure Zone where
  zoneId : String
  availableInstanceTypes : List String
  availableResources : List (List String)
deriving DecidableEq

/-- ecs.InstanceType, restricted to the fields the code reads. -/
structure InstanceType where
  instanceTypeId : String
  cpuCoreCount : Int
  memorySize : Rat
  gpuAmount : Int
  instanceBandwidthRx : Int
deriving DecidableEq

/-- The attribute map built by cloudinfo.Attributes (keys cpu, memory,
networkPerfTier, category).  Modelled from the spec: the helper's body is
not under src/; the spec records it as a map with exactly these keys. -/
structure Attrs where
  cpu : String
  memory : String
  networkPerfTier : String
  category : String
deriving DecidableEq

/-- cloudinfo.Attributes helper. -/
def Attributes (cpu memory ntwPerfCat category : String) : Attrs :=
  ⟨cpu, memory, ntwPerfCat, category⟩

/-- types.VMInfo, restricted to the fields this provider populates. -/
structure VMInfo where
  category : String
  type : String
  cpus : Rat
  mem : Rat
  gpus : Rat
  ntwPerf : String
  ntwPerfCat : String
  zones : List String
  onDemandPrice : Rat
  attributes : Attrs
deriving DecidableEq

/-- types.SpotPriceInfo: zone id → spot price. -/
abbrev SpotPriceInfo := List (String × Rat)

/-- types.Price. -/
structure Price where
  onDemandPrice : Rat
  spotPrice : SpotPriceInfo
deriving DecidableEq

/-- Go map write m[k] = v (overwrite), as an association-list cons;
List.lookup returns the most recent binding first. -/
def mapInsert {α : Type} (m : List (String × α)) (k : String) (v : α) :
    List (String × α) :=
  (k, v) :: m

/-- Whether a key is present in a Go map. -/
def mapMem {α : Type} (m : List (String × α)) (k : String) : Bool :=
  (List.lookup k m).isSome

/-- Go map read: m[k], yielding the zero value d when the key is absent. -/
def lookupD {α : Type} (m : List (String × α)) (k : String) (d : α) : α :=
  (List.lookup k m).getD d

/-- The SDK client: one deterministic oracle per request kind this file
issues, plus the two mapping helpers whose bodies are not under src/. -/
structure Env where
  /-- GetPayAsYouGoPrice request for a list of instance types in a region. -/
  payAsYouGoPrice : List String → String → RawResult PayAsYouGoResponse
  /-- DescribeZones request for a region. -/
  describeZones : String → RawResult (List Zone)
  /-- DescribeInstanceTypes request. -/
  describeInstanceTypes : RawResult (List InstanceType)
  /-- DescribeSpotPriceHistory request for (region, instanceType). -/
  describeSpotPriceHistory : String → String → RawResult (List SpotPriceType)
  /-- Modelled from the spec: newAlibabaNetworkMapper().MapNetworkPerf is not
  under src/.  The spec says an unmappable string yields a MappingError and
  the caller-visible VMInfo still has a non-empty default tier, so the mapper
  returns the tier value the caller stores together with an optional error. -/
  mapNetworkPerf : String → String × Option GoError
  /-- Modelled from the spec: (a *AlibabaInfoer).mapCategory is not under
  src/; category classification degrades to a default value plus an optional
  error, never aborting the listing. -/
  mapCategory : String → String × Option GoError

/-- hasLabel (cloudinfo.go): linear scan of the emperror context. -/
def hasLabel : List String → String → Bool
  | [], _ => false
  | e :: ctx, s => if e = s then true else hasLabel ctx s

/-- getPrice (cloudinfo.go): issue the GetPayAsYouGoPrice request, fail on a
transport or unmarshal error, fail with "failed to get price" carrying the
response code when Success is false, else return the OriginalCost list. -/
def getPrice (env : Env) (instanceTypes : List String) (region : String) :
    Except GoError (List Rat) :=
  match env.payAsYouGoPrice instanceTypes region with
  | .reqErr e => .error e
  | .parseErr e => .error e
  | .ok response =>
    if !response.success then
      .error ⟨"failed to get price", [response.code]⟩
    else
      .ok response.moduleDetails

/-- The condition of the fallback branch in getOnDemandPrice:
err.Error() == "failed to get price" && hasLabel(emperror.Context(err), "InvalidParameter"). -/
def isParamRejection (e : GoError) : Bool :=
  e.msg = "failed to get price" && hasLabel e.labels "InvalidParameter"

/-- Ghost record of one price request issued by getOnDemandPrice: a batch
request (first call site) or a single-item follow-up (retry call site). -/
inductive Req where
  | batch (its : List String)
  | single (it : String)
deriving DecidableEq

/-- State threaded through getOnDemandPrice: the allPrices map, plus the
ghost trace of price requests issued so far. -/
structure FetchState where
  allPrices : List (String × Rat)
  trace : List Req
deriving DecidableEq

/-- Outcome of a Go computation that can also panic (index out of range). -/
inductive FetchResult (α : Type) where
  | ok (a : α)
  | err (e : GoError)
  | panic
deriving DecidableEq

/-- The single-item fallback loop of getOnDemandPrice: one getPrice request
per member of the failed batch; an erroring member is skipped, a successful
one stores prices[0] — indexing that panics when the price list is empty. -/
def retryLoop (env : Env) (region : String) :
    List String → FetchState → FetchResult FetchState
  | [], st => .ok st
  | t :: rest, st =>
    match getPrice env [t] region with
    | .error _ =>
      retryLoop env region rest { st with trace := st.trace ++ [.single t] }
    | .ok prices =>
      match prices with
      | [] => .panic
      | p :: _ =>
        retryLoop env region rest
          ⟨mapInsert st.allPrices t p, st.trace ++ [.single t]⟩

/-- The success path of a batch: for i, price := range prices {
allPrices[instanceTypes[i]] = price }. -/
def storeBatch (batch : List String) (prices : List Rat)
    (m : List (String × Rat)) : List (String × Rat) :=
  (batch.zip prices).foldl (fun m p => mapInsert m p.1 p.2) m

/-- Processing of one full (or final short) batch inside getOnDemandPrice:
one batch getPrice request; on a parameter-rejection error fall back to the
single-item loop, on any other error abort, on success store the prices
positionally (instanceTypes[i] panics if the response holds more prices
than the batch has members). -/
def processBatch (env : Env) (region : String) (batch : List String)
    (st : FetchState) : FetchResult FetchState :=
  let st1 : FetchState := { st with trace := st.trace ++ [.batch batch] }
  match getPrice env batch region with
  | .error e =>
    if isParamRejection e then retryLoop env region batch st1
    else .err e
  | .ok prices =>
    if prices.length ≤ batch.length then
      .ok { st1 with allPrices := storeBatch batch prices st1.allPrices }
    else .panic

/-- The accumulating loop of getOnDemandPrice: append vm.Type to the
pending batch; when it reaches 25 members or the current vm is the last
one, process the batch and start a fresh one. -/
def odLoop (env : Env) (region : String) :
    List VMInfo → List String → FetchState → FetchResult FetchState
  | [], _, st => .ok st
  | vm :: rest, acc, st =>
    let acc' := acc ++ [vm.type]
    if (acc'.length = 25 ∨ rest = []) then
      match processBatch env region acc' st with
      | .ok st' => odLoop env region rest [] st'
      | .err e => .err e
      | .panic => .panic
    else
      odLoop env region rest acc' st

/-- getOnDemandPrice (cloudinfo.go): run the batch loop, then rebuild every
input VMInfo with OnDemandPrice := allPrices[vm.Type] — a Go map read whose
zero value is 0 when the type was never priced. -/
def getOnDemandPrice (env : Env) (vms : List VMInfo) (region : String) :
    FetchResult (List VMInfo × FetchState) :=
  match odLoop env region vms [] ⟨[], []⟩ with
  | .err e => .err e
  | .panic => .panic
  | .ok st =>
    .ok (vms.map (fun vm =>
      { category := vm.category
        type := vm.type
        onDemandPrice := lookupD st.allPrices vm.type 0
        cpus := vm.cpus
        mem := vm.mem
        gpus := vm.gpus
        ntwPerf := vm.ntwPerf
        ntwPerfCat := vm.ntwPerfCat
        zones := vm.zones
        attributes := vm.attributes }), st)

/-- getZones (cloudinfo.go): DescribeZones request; a transport error is
wrapped with "DescribeZones API call problem", an unmarshal error is
returned as is. -/
def getZones (env : Env) (region : String) : Except GoError (List Zone) :=
  match env.describeZones region with
  | .reqErr e => .error (wrap "DescribeZones API call problem" e)
  | .parseErr e => .error e
  | .ok zones => .ok zones

/-- getInstanceTypes (cloudinfo.go). -/
def getInstanceTypes (env : Env) : Except GoError (List InstanceType) :=
  match env.describeInstanceTypes with
  | .reqErr e => .error (wrap "DescribeInstanceTypes API call problem" e)
  | .parseErr e => .error e
  | .ok its => .ok its

/-- The zone-id list collected per instance type in GetVirtualMachines:
for each zone, for each ResourcesInfo entry, append the zone id when the
entry's SupportedInstanceType list contains the type (the break leaves the
innermost loop only, so one zone can contribute once per matching entry). -/
def vmZones (zones : List Zone) (itId : String) : List String :=
  zones.flatMap (fun z =>
    z.availableResources.filterMap (fun ri =>
      if ri.contains itId then some z.zoneId else none))

/-- The formatted network performance string of GetVirtualMachines:
fmt.Sprintf("%.1f Gbit/s", float64(InstanceBandwidthRx)/1024000).
Float64 formatting with one fraction digit is modelled as decimal
rounding of rx*10/1024000. -/
def fmtGbit (rx : Int) : String :=
  let n10 : Int := (rx * 10 + 512000) / 1024000
  toString (n10 / 10) ++ "." ++ toString (n10 % 10) ++ " Gbit/s"

/-- The VMInfo built for one instance type inside GetVirtualMachines, or
none when no zone of the region offers the type (len(zones) > 0 guard).
A mapper error is only logged; the value the mapper returned is stored. -/
def buildVM (env : Env) (zones : List Zone) (it : InstanceType) :
    Option VMInfo :=
  let zs := vmZones zones it.instanceTypeId
  if zs.length > 0 then
    let ntwPerf := fmtGbit it.instanceBandwidthRx
    let ntwPerfCat := (env.mapNetworkPerf ntwPerf).1
    let category := (env.mapCategory it.instanceTypeId).1
    some
      { category := category
        type := it.instanceTypeId
        cpus := (it.cpuCoreCount : Rat)
        mem := it.memorySize
        gpus := (it.gpuAmount : Rat)
        ntwPerf := ntwPerf
        ntwPerfCat := ntwPerfCat
        zones := zs
        onDemandPrice := 0
        attributes := Attributes (toString it.cpuCoreCount)
          (toString it.memorySize) ntwPerfCat category }
  else none

/-- GetVirtualMachines (cloudinfo.go): list instance types, list zones,
build a VMInfo per instance type available in at least one zone, then
price them through getOnDemandPrice. -/
def GetVirtualMachines (env : Env) (region : String) :
    FetchResult (List VMInfo) :=
  match getInstanceTypes env with
  | .error e => .err e
  | .ok its =>
    match getZones env region with
    | .error e => .err e
    | .ok zones =>
      match getOnDemandPrice env (its.filterMap (buildVM env zones)) region with
      | .err e => .err e
      | .panic => .panic
      | .ok r => .ok r.1

/-- The svcAck constant. -/
def svcAck : String := "ack"

/-- GetProducts (cloudinfo.go): fetch the VM list first when the given one
is empty (wrapping a failure with "failed to get products"), then switch on
the service name: "ack" and "compute" return the list, anything else fails
with errors.Wrap(errors.New(service), "invalid service"). -/
def GetProducts (env : Env) (vms : List VMInfo) (service regionId : String) :
    FetchResult (List VMInfo) :=
  match (if vms.length = 0 then
          match GetVirtualMachines env regionId with
          | .err e => .err (wrap "failed to get products" e)
          | .panic => .panic
          | .ok l => .ok l
         else .ok vms : FetchResult (List VMInfo)) with
  | .err e => .err e
  | .panic => .panic
  | .ok vmList =>
    if service = svcAck then .ok vmList
    else if service = "compute" then .ok vmList
    else .err ⟨"invalid service: " ++ service, []⟩

/-- HasShortLivedPriceInfo (cloudinfo.go): constantly false. -/
def HasShortLivedPriceInfo : Bool := false

/-- The inner loop of getCurrentSpotPrices over the response's
SpotPriceType entries.  The local spotPrice map receives one entry and the
loop breaks at the first entry whose ZoneId matches; every earlier
iteration assigns priceInfo[instanceType] = spotPrice.  Since Go maps are
references, that assignment aliases the final content of spotPrice, so the
result is the final spotPrice map plus whether the assignment happened at
all (it happens iff the first entry does not match). -/
def spotInner (zoneId : String) : List SpotPriceType → SpotPriceInfo × Bool
  | [] => ([], false)
  | pt :: rest =>
    if pt.zoneId = zoneId then ([(zoneId, pt.spotPrice)], false)
    else ((spotInner zoneId rest).1, true)

/-- The loop of getCurrentSpotPrices over one zone's available instance
types: a type already in priceInfo is skipped; a transport error of the
DescribeSpotPriceHistory request is logged and skipped; an unmarshal error
aborts the whole call; a decoded response runs the inner loop. -/
def spotZoneLoop (env : Env) (region zoneId : String) :
    List String → List (String × SpotPriceInfo) →
    Except GoError (List (String × SpotPriceInfo))
  | [], m => .ok m
  | it :: rest, m =>
    if (List.lookup it m).isNone then
      match env.describeSpotPriceHistory region it with
      | .reqErr _ => spotZoneLoop env region zoneId rest m
      | .parseErr e => .error e
      | .ok pts =>
        let r := spotInner zoneId pts
        spotZoneLoop env region zoneId rest
          (if r.2 then mapInsert m it r.1 else m)
    else spotZoneLoop env region zoneId rest m

/-- The outer loop of getCurrentSpotPrices over the region's zones. -/
def spotZonesLoop (env : Env) (region : String) :
    List Zone → List (String × SpotPriceInfo) →
    Except GoError (List (String × SpotPriceInfo))
  | [], m => .ok m
  | z :: rest, m =>
    match spotZoneLoop env region z.zoneId z.availableInstanceTypes m with
    | .error e => .error e
    | .ok m' => spotZonesLoop env region rest m'

/-- getCurrentSpotPrices (cloudinfo.go): list the region's zones (aborting
on failure), then walk every zone's available instance types. -/
def getCurrentSpotPrices (env : Env) (region : String) :
    Except GoError (List (String × SpotPriceInfo)) :=
  match getZones env region with
  | .error e => .error e
  | .ok zones => spotZonesLoop env region zones []

/-- GetCurrentPrices (cloudinfo.go): wrap every retrieved SpotPriceInfo in
a Price whose OnDemandPrice is the -1 sentinel. -/
def GetCurrentPrices (env : Env) (region : String) :
    Except GoError (List (String × Price)) :=
  match getCurrentSpotPrices env region with
  | .error e => .error e
  | .ok spotPrices =>
    .ok (spotPrices.map (fun sp => (sp.1, ⟨-1, sp.2⟩)))

/-! Specification-side helpers used to state the claims. -/

/-- The batch decomposition getOnDemandPrice performs: consecutive runs of
25 instance types, the last run possibly shorter. -/
def goBatches (acc : List String) : List String → List (List String)
  | [] => []
  | t :: rest =>
    if ((acc ++ [t]).length = 25 ∨ rest = []) then
      (acc ++ [t]) :: goBatches [] rest
    else goBatches (acc ++ [t]) rest

/-- Batch processing expressed over an explicit batch list; the loop of
getOnDemandPrice is proven equal to it. -/
def processChunks (env : Env) (region : String) :
    List (List String) → FetchState → FetchResult FetchState
  | [], st => .ok st
  | b :: rest, st =>
    match processBatch env region b st with
    | .ok st' => processChunks env region rest st'
    | .err e => .err e
    | .panic => .panic

/-- The batch requests of a trace, in order. -/
def batchReqs (tr : List Req) : List (List String) :=
  tr.filterMap (fun r => match r with | .batch b => some b | .single _ => none)

/-- Whether a getPrice outcome is a success. -/
def exOk (r : Except GoError (List Rat)) : Bool :=
  match r with
  | .ok _ => true
  | .error _ => false

/-- Whether a getPrice outcome is a parameter-rejection failure. -/
def exErrIP (r : Except GoError (List Rat)) : Bool :=
  match r with
  | .ok _ => false
  | .error e => isParamRejection e

/-- A well-behaved price service: a successful response prices exactly the
requested instance types (one price per type, positionally). -/
def WFPrices (env : Env) (region : String) : Prop :=
  ∀ ts ps, getPrice env ts region = .ok ps → ps.length = ts.length

/-- Every batch request either succeeds or is a parameter rejection. -/
def OkOrIP (env : Env) (region : String) : Prop :=
  ∀ ts, exOk (getPrice env ts region) = true ∨
    exErrIP (getPrice env ts region) = true

/-- An instance type got a price from a given batch: the batch succeeded,
or it was rejected as a parameter error and the single-item retry for the
type succeeded. -/
def pricedInBatch (env : Env) (region : String) (b : List String)
    (t : String) : Prop :=
  exOk (getPrice env b region) = true ∨
    (exErrIP (getPrice env b region) = true ∧
      exOk (getPrice env [t] region) = true)

/-- An instance type whose batch was rejected as a parameter error and
whose retried single-item request also failed. -/
def retriedAndFailed (env : Env) (region : String) (bs : List (List String))
    (t : String) : Prop :=
  ∃ b ∈ bs, t ∈ b ∧ exErrIP (getPrice env b region) = true ∧
    exOk (getPrice env [t] region) = false

/-- Whether a raw SDK outcome is a transport (ProcessCommonRequest) error. -/
def isReq {α : Type} : RawResult α → Bool
  | .reqErr _ => true
  | _ => false

/-- Whether a raw SDK outcome is an unmarshal error. -/
def isParse {α : Type} : RawResult α → Bool
  | .parseErr _ => true
  | _ => false

/-! Concrete environments and values used by witnesses and counterexamples. -/

/-- A VMInfo value with the given instance type. -/
def mkVM (t : String) : VMInfo :=
  ⟨"general", t, 1, 1, 0, "1.0 Gbit/s", "low", ["z1"], 0, ⟨"1", "1", "low", "general"⟩⟩

/-- An environment whose endpoints all fail at the transport level and
whose network mapper always reports a MappingError with default tier
"unknown". -/
def defaultEnv : Env where
  payAsYouGoPrice := fun _ _ => .reqErr ⟨"no price endpoint", []⟩
  describeZones := fun _ => .reqErr ⟨"no zones endpoint", []⟩
  describeInstanceTypes := .reqErr ⟨"no instance types endpoint", []⟩
  describeSpotPriceHistory := fun _ _ => .reqErr ⟨"no spot endpoint", []⟩
  mapNetworkPerf := fun _ => ("unknown", some ⟨"MappingError", []⟩)
  mapCategory := fun _ => ("unknown", none)

/-- Every price request succeeds with one price (3) per requested type. -/
def envAllOkPrices : Env :=
  { defaultEnv with
    payAsYouGoPrice := fun ts _ => .ok ⟨true, "", ts.map (fun _ => (3 : Rat))⟩ }

/-- One instance type, one zone offering it, prices always available. -/
def envOk : Env :=
  { defaultEnv with
    describeInstanceTypes := .ok [⟨"t1", 4, 8, 0, 1024000⟩]
    describeZones := fun _ => .ok [⟨"z1", ["t1"], [["t1"]]⟩]
    payAsYouGoPrice := fun ts _ => .ok ⟨true, "", ts.map (fun _ => (3 : Rat))⟩ }

/-- The batch ["a"] is rejected as InvalidParameter; every other price
request fails at the transport level. -/
def envC2 : Env :=
  { defaultEnv with
    payAsYouGoPrice := fun ts _ =>
      if ts = ["a"] then .ok ⟨false, "InvalidParameter", []⟩
      else .reqErr ⟨"boom", []⟩ }

/-- Every price request is rejected as InvalidParameter, so nothing can be
priced. -/
def envRejectAll : Env :=
  { defaultEnv with
    payAsYouGoPrice := fun _ _ => .ok ⟨false, "InvalidParameter", []⟩ }

/-- One zone with two instance types: t1 has spot price history (first
entry for another zone, second for z1), t2's request fails at the
transport level. -/
def envSpot : Env :=
  { defaultEnv with
    describeZones := fun _ => .ok [⟨"z1", ["t1", "t2"], []⟩]
    describeSpotPriceHistory := fun _ it =>
      if it = "t1" then .ok [⟨"zX", 2⟩, ⟨"z1", 5⟩]
      else .reqErr ⟨"down", []⟩ }

/-- One zone with one instance type whose spot price history response
fails to unmarshal. -/
def envSpotParse : Env :=
  { defaultEnv with
    describeZones := fun _ => .ok [⟨"z1", ["t1"], []⟩]
    describeSpotPriceHistory := fun _ _ => .parseErr ⟨"bad json", []⟩ }

/-- The instance type listing fails at the transport level. -/
def envNoInst : Env :=
  { defaultEnv with describeInstanceTypes := .reqErr ⟨"boom", []⟩ }

/-- The batch ["t1", "t2"] is rejected as InvalidParameter, and the
single-item retry for t1 succeeds with an empty price list. -/
def envPanic : Env :=
  { defaultEnv with
    payAsYouGoPrice := fun ts _ =>
      if ts = ["t1", "t2"] then .ok ⟨false, "InvalidParameter", []⟩
      else if ts = ["t1"] then .ok ⟨true, "", []⟩
      else .reqErr ⟨"x", []⟩ }

/-- The ghost trace of a completed fetch. -/
def traceOf (r : FetchResult FetchState) : List Req :=
  match r with
  | .ok st => st.trace
  | .err _ => []
  | .panic => []

/-- The single VMInfo produced by GetVirtualMachines in the envOk
environment. -/
def vmOkResult : VMInfo :=
  ⟨"unknown", "t1", 4, 8, 0, "1.0 Gbit/s", "unknown", ["z1"], 3,
    ⟨"4", "8", "unknown", "unknown"⟩⟩

/-! General lemmas about the embedded operations. -/

theorem mapMem_insert {α : Type} (m : List (String × α)) (k t : String) (v : α) :
    mapMem (mapInsert m k v) t = true ↔ t = k ∨ mapMem m t = true := by
  simp only [mapMem, mapInsert, List.lookup]
  by_cases h : t = k
  · simp [h]
  · have hb : (t == k) = false := by simp [h]
    simp [hb, h]

theorem mem_foldl_insert {α : Type} (ps : List (String × α))
    (m : List (String × α)) (t : String) :
    mapMem (ps.foldl (fun m p => mapInsert m p.1 p.2) m) t = true ↔
      t ∈ ps.map Prod.fst ∨ mapMem m t = true := by
  induction ps generalizing m with
  | nil => simp
  | cons p ps ih => simp [List.foldl_cons, ih, mapMem_insert]; tauto

theorem storeBatch_mem (batch : List String) (prices : List Rat)
    (m : List (String × Rat)) (t : String)
    (h : prices.length = batch.length) :
    mapMem (storeBatch batch prices m) t = true ↔
      t ∈ batch ∨ mapMem m t = true := by
  rw [storeBatch, mem_foldl_insert, List.map_fst_zip]
  exact le_of_eq h.symm

theorem batchReqs_append (a b : List Req) :
    batchReqs (a ++ b) = batchReqs a ++ batchReqs b := by
  simp [batchReqs, List.filterMap_append]

theorem batchReqs_singles (b : List String) :
    batchReqs (b.map Req.single) = [] := by
  induction b with
  | nil => rfl
  | cons t rest ih =>
    simp only [List.map_cons, batchReqs, List.filterMap_cons]
    exact ih

theorem retryLoop_spec (env : Env) (region : String) :
    ∀ (b : List String) (st : FetchState),
      (∀ t ∈ b, ∀ ps, getPrice env [t] region = .ok ps → ps ≠ []) →
      ∃ st', retryLoop env region b st = .ok st' ∧
        st'.trace = st.trace ++ b.map Req.single ∧
        ∀ u, mapMem st'.allPrices u = true ↔
          (u ∈ b ∧ exOk (getPrice env [u] region) = true) ∨
            mapMem st.allPrices u = true := by
  intro b
  induction b with
  | nil => intro st _; exact ⟨st, rfl, by simp, by simp⟩
  | cons t rest ih =>
    intro st hne
    cases hgp : getPrice env [t] region with
    | error e =>
      obtain ⟨st', h1, h2, h3⟩ :=
        ih { st with trace := st.trace ++ [Req.single t] }
          (fun u hu => hne u (List.mem_cons_of_mem _ hu))
      have hokt : exOk (getPrice env [t] region) = false := by
        simp [exOk, hgp]
      refine ⟨st', by simpa [retryLoop, hgp] using h1, ?_, ?_⟩
      · simp only [h2]; simp
      · intro u
        rw [h3]
        constructor
        · rintro (⟨hur, hok⟩ | hm)
          · exact Or.inl ⟨List.mem_cons_of_mem _ hur, hok⟩
          · exact Or.inr hm
        · rintro (⟨hut, hok⟩ | hm)
          · rcases List.mem_cons.mp hut with rfl | hur
            · rw [hokt] at hok; cases hok
            · exact Or.inl ⟨hur, hok⟩
          · exact Or.inr hm
    | ok ps =>
      have hps := hne t (List.mem_cons_self t rest) ps hgp
      cases ps with
      | nil => cases hps rfl
      | cons p ps' =>
        obtain ⟨st', h1, h2, h3⟩ :=
          ih ⟨mapInsert st.allPrices t p, st.trace ++ [Req.single t]⟩
            (fun u hu => hne u (List.mem_cons_of_mem _ hu))
        have hokt : exOk (getPrice env [t] region) = true := by
          simp [exOk, hgp]
        refine ⟨st', by simpa [retryLoop, hgp] using h1, ?_, ?_⟩
        · simp only [h2]; simp
        · intro u
          rw [h3]
          simp only [mapMem_insert]
          constructor
          · rintro (⟨hur, hok⟩ | rfl | hm)
            · exact Or.inl ⟨List.mem_cons_of_mem _ hur, hok⟩
            · exact Or.inl ⟨List.mem_cons_self _ _, hokt⟩
            · exact Or.inr hm
          · rintro (⟨hut, hok⟩ | hm)
            · rcases List.mem_cons.mp hut with rfl | hur
              · exact Or.inr (Or.inl rfl)
              · exact Or.inl ⟨hur, hok⟩
            · exact Or.inr (Or.inr hm)

theorem processBatch_spec (env : Env) (region : String)
    (hwf : WFPrices env region) (b : List String) (st : FetchState)
    (hok : exOk (getPrice env b region) = true ∨
      exErrIP (getPrice env b region) = true) :
    ∃ st', processBatch env region b st = .ok st' ∧
      batchReqs st'.trace = batchReqs st.trace ++ [b] ∧
      ∀ u, mapMem st'.allPrices u = true ↔
        (u ∈ b ∧ pricedInBatch env region b u) ∨
          mapMem st.allPrices u = true := by
  cases hgp : getPrice env b region with
  | ok prices =>
    have hlen : prices.length = b.length := hwf b prices hgp
    refine ⟨⟨storeBatch b prices st.allPrices, st.trace ++ [Req.batch b]⟩,
      by simp [processBatch, hgp, hlen.le], ?_, ?_⟩
    · simp [batchReqs_append, batchReqs, List.filterMap_cons]
    · intro u
      simp only [storeBatch_mem b prices _ u hlen]
      have hpr : pricedInBatch env region b u := Or.inl (by simp [exOk, hgp])
      constructor
      · rintro (hub | hm)
        · exact Or.inl ⟨hub, hpr⟩
        · exact Or.inr hm
      · rintro (⟨hub, _⟩ | hm)
        · exact Or.inl hub
        · exact Or.inr hm
  | error e =>
    have hip : isParamRejection e = true := by
      rcases hok with hok | hok
      · simp [exOk, hgp] at hok
      · simpa [exErrIP, hgp] using hok
    have hne : ∀ t ∈ b, ∀ ps, getPrice env [t] region = .ok ps → ps ≠ [] := by
      intro t _ ps hps h0
      have := hwf [t] ps hps
      simp [h0] at this
    obtain ⟨st', h1, h2, h3⟩ :=
      retryLoop_spec env region b { st with trace := st.trace ++ [Req.batch b] } hne
    refine ⟨st', by simpa [processBatch, hgp, hip] using h1, ?_, ?_⟩
    · rw [h2]
      simp [batchReqs_append, batchReqs_singles, batchReqs, List.filterMap_cons]
    · intro u
      rw [h3]
      have hpr : pricedInBatch env region b u ↔
          exOk (getPrice env [u] region) = true := by
        simp [pricedInBatch, exOk, exErrIP, hgp, hip]
      simp only [hpr]

theorem processBatch_ok_inv (env : Env) (region : String) (b : List String)
    (st st' : FetchState) (h : processBatch env region b st = .ok st') :
    exOk (getPrice env b region) = true ∨
      exErrIP (getPrice env b region) = true := by
  cases hgp : getPrice env b region with
  | ok prices => exact Or.inl (by simp [exOk, hgp])
  | error e =>
    right
    simp only [exErrIP]
    by_cases hip : isParamRejection e = true
    · exact hip
    · exfalso
      simp only [processBatch, hgp] at h
      rw [if_neg hip] at h
      cases h

theorem processChunks_spec (env : Env) (region : String)
    (hwf : WFPrices env region) :
    ∀ (bs : List (List String)) (st st' : FetchState),
      processChunks env region bs st = .ok st' →
      (∀ b ∈ bs, exOk (getPrice env b region) = true ∨
        exErrIP (getPrice env b region) = true) ∧
      batchReqs st'.trace = batchReqs st.trace ++ bs ∧
      ∀ u, mapMem st'.allPrices u = true ↔
        (∃ b ∈ bs, u ∈ b ∧ pricedInBatch env region b u) ∨
          mapMem st.allPrices u = true := by
  intro bs
  induction bs with
  | nil =>
    intro st st' h
    rw [processChunks] at h
    cases h
    exact ⟨by simp, by simp, by simp⟩
  | cons b rest ih =>
    intro st st' h
    rw [processChunks] at h
    cases hpb : processBatch env region b st with
    | err e => rw [hpb] at h; cases h
    | panic => rw [hpb] at h; cases h
    | ok st1 =>
      rw [hpb] at h
      have hokb := processBatch_ok_inv env region b st st1 hpb
      obtain ⟨st1', h1, h2, h3⟩ := processBatch_spec env region hwf b st hokb
      rw [hpb] at h1
      cases h1
      obtain ⟨ih1, ih2, ih3⟩ := ih st1 st' h
      refine ⟨?_, ?_, ?_⟩
      · intro b' hb'
        rcases List.mem_cons.mp hb' with rfl | hb'
        · exact hokb
        · exact ih1 b' hb'
      · rw [ih2, h2]; simp
      · intro u
        rw [ih3, h3]
        simp only [List.exists_mem_cons_iff]
        constructor
        · rintro (hex | hb | hm)
          · exact Or.inl (Or.inr hex)
          · exact Or.inl (Or.inl hb)
          · exact Or.inr hm
        · rintro ((hb | hex) | hm)
          · exact Or.inr (Or.inl hb)
          · exact Or.inl hex
          · exact Or.inr (Or.inr hm)

theorem processChunks_total (env : Env) (region : String)
    (hwf : WFPrices env region) (hok : OkOrIP env region) :
    ∀ (bs : List (List String)) (st : FetchState),
      ∃ st', processChunks env region bs st = .ok st' := by
  intro bs
  induction bs with
  | nil => intro st; exact ⟨st, rfl⟩
  | cons b rest ih =>
    intro st
    obtain ⟨st1, h1, _, _⟩ := processBatch_spec env region hwf b st (hok b)
    obtain ⟨st', h2⟩ := ih st1
    exact ⟨st', by rw [processChunks, h1]; exact h2⟩

theorem odLoop_eq_chunks (env : Env) (region : String) :
    ∀ (vms : List VMInfo) (acc : List String) (st : FetchState),
      odLoop env region vms acc st =
        processChunks env region (goBatches acc (vms.map VMInfo.type)) st := by
  intro vms
  induction vms with
  | nil => intro acc st; rfl
  | cons vm rest ih =>
    intro acc st
    simp only [List.map_cons, odLoop, goBatches]
    by_cases hc : (acc ++ [vm.type]).length = 25 ∨ rest = []
    · have hc' : (acc ++ [vm.type]).length = 25 ∨ rest.map VMInfo.type = [] := by
        simpa [List.map_eq_nil_iff] using hc
      rw [if_pos hc, if_pos hc']
      rw [processChunks]
      cases hpb : processBatch env region (acc ++ [vm.type]) st with
      | ok st1 => exact ih [] st1
      | err e => rfl
      | panic => rfl
    · have hc' : ¬((acc ++ [vm.type]).length = 25 ∨ rest.map VMInfo.type = []) := by
        simpa [List.map_eq_nil_iff] using hc
      rw [if_neg hc, if_neg hc']
      exact ih (acc ++ [vm.type]) st

theorem goBatches_nil (acc : List String) : goBatches acc [] = [] := rfl

theorem goBatches_cons (acc : List String) (t : String) (rest : List String) :
    goBatches acc (t :: rest) =
      if ((acc ++ [t]).length = 25 ∨ rest = []) then
        (acc ++ [t]) :: goBatches [] rest
      else goBatches (acc ++ [t]) rest := rfl

theorem goBatches_ne : ∀ (l : List String) (acc : List String), l ≠ [] →
    goBatches acc l ≠ [] := by
  intro l
  induction l with
  | nil => intro acc h; cases h rfl
  | cons t rest ih =>
    intro acc _
    by_cases hc : ((acc ++ [t]).length = 25 ∨ rest = [])
    · rw [goBatches_cons, if_pos hc]
      simp
    · have hr : rest ≠ [] := by
        intro h0; exact hc (Or.inr h0)
      rw [goBatches_cons, if_neg hc]
      exact ih (acc ++ [t]) hr

theorem goBatches_flatten : ∀ (l : List String) (acc : List String), l ≠ [] →
    (goBatches acc l).flatten = acc ++ l := by
  intro l
  induction l with
  | nil => intro acc h; cases h rfl
  | cons t rest ih =>
    intro acc _
    by_cases hr : rest = []
    · subst hr
      rw [goBatches_cons, if_pos (Or.inr rfl)]
      simp [goBatches_nil]
    · by_cases hc : ((acc ++ [t]).length = 25 ∨ rest = [])
      · rw [goBatches_cons, if_pos hc, List.flatten_cons, ih [] hr]
        simp
      · rw [goBatches_cons, if_neg hc, ih (acc ++ [t]) hr]
        simp

theorem goBatches_bound : ∀ (l : List String) (acc : List String),
    acc.length < 25 → ∀ b ∈ goBatches acc l, 0 < b.length ∧ b.length ≤ 25 := by
  intro l
  induction l with
  | nil => intro acc _ b hb; cases hb
  | cons t rest ih =>
    intro acc hacc b hb
    by_cases hc : ((acc ++ [t]).length = 25 ∨ rest = [])
    · rw [goBatches_cons, if_pos hc] at hb
      rcases List.mem_cons.mp hb with rfl | hb
      · constructor
        · simp
        · rcases hc with hc | _
          · exact le_of_eq hc
          · simp only [List.length_append, List.length_cons, List.length_nil]
            omega
      · exact ih [] (by simp) b hb
    · rw [goBatches_cons, if_neg hc] at hb
      have hlen : (acc ++ [t]).length < 25 := by
        have h25 : (acc ++ [t]).length ≠ 25 := fun h0 => hc (Or.inl h0)
        simp only [List.length_append, List.length_cons, List.length_nil] at h25 ⊢
        omega
      exact ih (acc ++ [t]) hlen b hb

theorem goBatches_full : ∀ (l : List String) (acc : List String),
    ∀ b ∈ (goBatches acc l).dropLast, b.length = 25 := by
  intro l
  induction l with
  | nil =>
    intro acc b hb
    rw [goBatches_nil] at hb
    cases hb
  | cons t rest ih =>
    intro acc b hb
    rw [goBatches_cons] at hb
    by_cases hc : ((acc ++ [t]).length = 25 ∨ rest = [])
    · rw [if_pos hc] at hb
      cases htail : goBatches [] rest with
      | nil =>
        rw [htail] at hb
        cases hb
      | cons u tail' =>
        rw [htail, List.dropLast_cons₂] at hb
        rcases List.mem_cons.mp hb with rfl | hb
        · have hr : rest ≠ [] := by
            intro h0
            subst h0
            rw [goBatches_nil] at htail
            cases htail
          rcases hc with hc | hc
          · exact hc
          · cases hr hc
        · rw [← htail] at hb
          exact ih [] b hb
    · rw [if_neg hc] at hb
      exact ih (acc ++ [t]) b hb

theorem flatten_nodup_unique : ∀ (bs : List (List String)),
    bs.flatten.Nodup →
    ∀ b1 ∈ bs, ∀ b2 ∈ bs, ∀ t, t ∈ b1 → t ∈ b2 → b1 = b2 := by
  intro bs
  induction bs with
  | nil => intro _ b1 hb1; cases hb1
  | cons b rest ih =>
    intro hnd b1 hb1 b2 hb2 t ht1 ht2
    rw [List.flatten_cons, List.nodup_append] at hnd
    obtain ⟨_, hrest, hdisj⟩ := hnd
    rcases List.mem_cons.mp hb1 with h1 | h1
    · rcases List.mem_cons.mp hb2 with h2 | h2
      · rw [h1, h2]
      · subst h1
        exact absurd (show t ∈ rest.flatten from List.mem_flatten.mpr ⟨b2, h2, ht2⟩)
          (fun hj => hdisj ht1 hj)
    · rcases List.mem_cons.mp hb2 with h2 | h2
      · subst h2
        exact absurd (show t ∈ rest.flatten from List.mem_flatten.mpr ⟨b1, h1, ht1⟩)
          (fun hj => hdisj ht2 hj)
      · exact ih hrest b1 h1 b2 h2 t ht1 ht2

theorem getOnDemandPrice_shape (env : Env) (vms : List VMInfo)
    (region : String) (l : List VMInfo) (st : FetchState)
    (h : getOnDemandPrice env vms region = .ok (l, st)) :
    odLoop env region vms [] ⟨[], []⟩ = .ok st ∧
    l = vms.map (fun vm =>
      { category := vm.category
        type := vm.type
        onDemandPrice := lookupD st.allPrices vm.type 0
        cpus := vm.cpus
        mem := vm.mem
        gpus := vm.gpus
        ntwPerf := vm.ntwPerf
        ntwPerfCat := vm.ntwPerfCat
        zones := vm.zones
        attributes := vm.attributes }) := by
  cases hod : odLoop env region vms [] ⟨[], []⟩ with
  | err e => rw [getOnDemandPrice, hod] at h; cases h
  | panic => rw [getOnDemandPrice, hod] at h; cases h
  | ok st0 =>
    rw [getOnDemandPrice, hod] at h
    cases h
    exact ⟨rfl, rfl⟩

theorem getVirtualMachines_ok (env : Env) (region : String) (l : List VMInfo)
    (h : GetVirtualMachines env region = .ok l) :
    ∃ its zones st,
      getInstanceTypes env = .ok its ∧
      getZones env region = .ok zones ∧
      getOnDemandPrice env (its.filterMap (buildVM env zones)) region =
        .ok (l, st) := by
  cases hits : getInstanceTypes env with
  | error e => simp only [GetVirtualMachines, hits] at h; cases h
  | ok its =>
    cases hz : getZones env region with
    | error e => simp only [GetVirtualMachines, hits, hz] at h; cases h
    | ok zones =>
      cases hod : getOnDemandPrice env (its.filterMap (buildVM env zones)) region with
      | err e => simp only [GetVirtualMachines, hits, hz, hod] at h; cases h
      | panic => simp only [GetVirtualMachines, hits, hz, hod] at h; cases h
      | ok r =>
        simp only [GetVirtualMachines, hits, hz, hod, FetchResult.ok.injEq] at h
        subst h
        exact ⟨its, zones, r.2, rfl, rfl, by rw [hod]⟩

theorem buildVM_some (env : Env) (zones : List Zone) (it : InstanceType)
    (vm₀ : VMInfo) (h : buildVM env zones it = some vm₀) :
    vm₀.type = it.instanceTypeId ∧
    vm₀.zones = vmZones zones it.instanceTypeId ∧
    vm₀.ntwPerfCat = (env.mapNetworkPerf (fmtGbit it.instanceBandwidthRx)).1 ∧
    vm₀.zones ≠ [] := by
  by_cases hz : (vmZones zones it.instanceTypeId).length > 0
  · rw [buildVM] at h
    simp only [if_pos hz] at h
    cases h
    refine ⟨rfl, rfl, rfl, ?_⟩
    simpa using List.length_pos.mp hz
  · rw [buildVM] at h
    simp only [if_neg hz] at h
    cases h

theorem buildVM_of_zones (env : Env) (zones : List Zone) (it : InstanceType)
    (hz : vmZones zones it.instanceTypeId ≠ []) :
    ∃ vm₀, buildVM env zones it = some vm₀ := by
  have hz' : (vmZones zones it.instanceTypeId).length > 0 :=
    List.length_pos.mpr hz
  simp only [buildVM, if_pos hz']
  exact ⟨_, rfl⟩

theorem exOk_not_exErrIP (r : Except GoError (List Rat)) :
    exOk r = true → exErrIP r = true → False := by
  cases r <;> simp [exOk, exErrIP]

theorem processBatch_err (env : Env) (region : String) (b : List String)
    (st : FetchState) (e : GoError)
    (hgp : getPrice env b region = .error e)
    (hnip : isParamRejection e = false) :
    processBatch env region b st = .err e := by
  simp only [processBatch, hgp]
  rw [if_neg (by simp [hnip])]

theorem goBatches_small : ∀ (l acc : List String), l ≠ [] →
    acc.length + l.length ≤ 25 → goBatches acc l = [acc ++ l] := by
  intro l
  induction l with
  | nil => intro acc h; cases h rfl
  | cons t rest ih =>
    intro acc _ hlen
    by_cases hr : rest = []
    · subst hr
      rw [goBatches_cons, if_pos (Or.inr rfl), goBatches_nil]
    · have hne25 : ¬((acc ++ [t]).length = 25 ∨ rest = []) := by
        rintro (h25 | h0)
        · have hrest : 0 < rest.length :=
            List.length_pos.mpr hr
          rw [List.length_append] at h25
          simp only [List.length_cons, List.length_nil] at h25 hlen
          omega
        · exact hr h0
      rw [goBatches_cons, if_neg hne25,
        ih (acc ++ [t]) hr (by
          rw [List.length_append]
          simp only [List.length_cons, List.length_nil] at hlen ⊢
          omega)]
      simp

theorem getOnDemandPrice_total (env : Env) (region : String)
    (hwf : WFPrices env region) (hok : OkOrIP env region)
    (vms : List VMInfo) :
    ∃ st, getOnDemandPrice env vms region =
      .ok (vms.map (fun vm =>
        { category := vm.category
          type := vm.type
          onDemandPrice := lookupD st.allPrices vm.type 0
          cpus := vm.cpus
          mem := vm.mem
          gpus := vm.gpus
          ntwPerf := vm.ntwPerf
          ntwPerfCat := vm.ntwPerfCat
          zones := vm.zones
          attributes := vm.attributes }), st) := by
  obtain ⟨st', hst⟩ := processChunks_total env region hwf
    (fun b => hok b) (goBatches [] (vms.map VMInfo.type)) ⟨[], []⟩
  have hod : odLoop env region vms [] ⟨[], []⟩ = .ok st' := by
    rw [odLoop_eq_chunks]
    exact hst
  exact ⟨st', by rw [getOnDemandPrice, hod]⟩

theorem lookup_insert_ne {α : Type} (m : List (String × α)) (k k' : String)
    (v : α) (h : k' ≠ k) :
    List.lookup k' (mapInsert m k v) = List.lookup k' m := by
  have hb : (k' == k) = false := by simp [h]
  simp [mapInsert, List.lookup, hb]

theorem spotZoneLoop_ok (env : Env) (region zoneId : String)
    (hNoParse : ∀ it, isParse (env.describeSpotPriceHistory region it) = false) :
    ∀ (its : List String) (m : List (String × SpotPriceInfo)),
      (∀ it, isReq (env.describeSpotPriceHistory region it) = true →
        List.lookup it m = none) →
      ∃ m', spotZoneLoop env region zoneId its m = .ok m' ∧
        (∀ it, isReq (env.describeSpotPriceHistory region it) = true →
          List.lookup it m' = none) := by
  intro its
  induction its with
  | nil => intro m hinv; exact ⟨m, rfl, hinv⟩
  | cons it rest ih =>
    intro m hinv
    by_cases hl : (List.lookup it m).isNone = true
    · cases hh : env.describeSpotPriceHistory region it with
      | reqErr e =>
        obtain ⟨m', h1, h2⟩ := ih m hinv
        exact ⟨m', by simp only [spotZoneLoop, hh]; rw [if_pos hl]; exact h1, h2⟩
      | parseErr e =>
        have := hNoParse it
        rw [hh] at this
        cases this
      | ok pts =>
        have hreqf : isReq (env.describeSpotPriceHistory region it) = false := by
          rw [hh]; rfl
        by_cases hassigned : (spotInner zoneId pts).2 = true
        · have hinv' : ∀ it', isReq (env.describeSpotPriceHistory region it') = true →
              List.lookup it' (mapInsert m it (spotInner zoneId pts).1) = none := by
            intro it' hr
            have hne : it' ≠ it := by
              intro h0
              rw [h0, hreqf] at hr
              cases hr
            rw [lookup_insert_ne m it it' _ hne]
            exact hinv it' hr
          obtain ⟨m', h1, h2⟩ := ih (mapInsert m it (spotInner zoneId pts).1) hinv'
          refine ⟨m', ?_, h2⟩
          simp only [spotZoneLoop, hh]
          rw [if_pos hl, if_pos hassigned]
          exact h1
        · obtain ⟨m', h1, h2⟩ := ih m hinv
          refine ⟨m', ?_, h2⟩
          simp only [spotZoneLoop, hh]
          rw [if_pos hl, if_neg hassigned]
          exact h1
    · obtain ⟨m', h1, h2⟩ := ih m hinv
      refine ⟨m', ?_, h2⟩
      simp only [spotZoneLoop]
      rw [if_neg hl]
      exact h1

theorem spotZonesLoop_ok (env : Env) (region : String)
    (hNoParse : ∀ it, isParse (env.describeSpotPriceHistory region it) = false) :
    ∀ (zones : List Zone) (m : List (String × SpotPriceInfo)),
      (∀ it, isReq (env.describeSpotPriceHistory region it) = true →
        List.lookup it m = none) →
      ∃ m', spotZonesLoop env region zones m = .ok m' ∧
        (∀ it, isReq (env.describeSpotPriceHistory region it) = true →
          List.lookup it m' = none) := by
  intro zones
  induction zones with
  | nil => intro m hinv; exact ⟨m, rfl, hinv⟩
  | cons z rest ih =>
    intro m hinv
    obtain ⟨m1, h1, hinv1⟩ :=
      spotZoneLoop_ok env region z.zoneId hNoParse z.availableInstanceTypes m hinv
    obtain ⟨m', h2, hinv2⟩ := ih m1 hinv1
    refine ⟨m', ?_, hinv2⟩
    rw [spotZonesLoop, h1]
    exact h2

/-! Claim theorems. -/

/-- C9: AlibabaInfoer.HasShortLivedPriceInfo constantly returns false, so
the scheduler's two-tier cadence treats Alibaba as a provider without
short-lived price info even though the code's comment says its spot prices
change continuously. -/
theorem c9_hasShortLivedPriceInfo_false : HasShortLivedPriceInfo = false := rfl

/-- C10: in the single-item retry branch of getOnDemandPrice the access
prices[0] is only safe when the successful response carries at least one
price; in an environment whose batch is rejected as InvalidParameter and
whose single-item response succeeds with an empty price list, the indexing
is out of bounds, modelled as the panic outcome. -/
theorem c10_retry_empty_price_panics :
    getOnDemandPrice envPanic [mkVM "t1", mkVM "t2"] "r" = .panic := rfl

/-- C3 counterexample: with every price request rejected as
InvalidParameter, the single instance type t1 cannot be priced — the final
price map is empty — yet the VMInfo returned by getOnDemandPrice carries
OnDemandPrice 0 (its input price 5 was even overwritten by the map's zero
default), so an unpriced type is reported with price 0. -/
theorem c3_counterexample :
    getOnDemandPrice envRejectAll [{ mkVM "t1" with onDemandPrice := 5 }] "r" =
      .ok ([mkVM "t1"], ⟨[], [Req.batch ["t1"], Req.single "t1"]⟩) ∧
    (mkVM "t1").onDemandPrice = 0 ∧
    List.lookup "t1" ([] : List (String × Rat)) = none :=
  ⟨rfl, rfl, rfl⟩

/-- C3 (amended): instance types that could not be priced are absent from
the internal allPrices map, but in the VMInfo list returned by
getOnDemandPrice such a type is reported with OnDemandPrice 0 — the Go map
zero value — indistinguishable from a real zero price, while priced types
carry their fetched price. -/
theorem c3_unpriced_reported_as_zero (env : Env) (region : String)
    (vms l : List VMInfo) (st : FetchState)
    (h : getOnDemandPrice env vms region = .ok (l, st)) :
    (∀ vm' ∈ l, List.lookup vm'.type st.allPrices = none →
      vm'.onDemandPrice = 0) ∧
    (∀ vm' ∈ l, ∀ p, List.lookup vm'.type st.allPrices = some p →
      vm'.onDemandPrice = p) := by
  obtain ⟨-, hl⟩ := getOnDemandPrice_shape env vms region l st h
  subst hl
  constructor
  · intro vm' hm hnone
    obtain ⟨vm, -, rfl⟩ := List.mem_map.mp hm
    show lookupD st.allPrices vm.type 0 = 0
    rw [lookupD]
    rw [show List.lookup vm.type st.allPrices = none from hnone]
    rfl
  · intro vm' hm p hsome
    obtain ⟨vm, -, rfl⟩ := List.mem_map.mp hm
    show lookupD st.allPrices vm.type 0 = p
    rw [lookupD]
    rw [show List.lookup vm.type st.allPrices = some p from hsome]
    rfl

/-- C3 witness: the amended theorem applied to the envRejectAll run, where
the unpriced type t1 is reported with price 0. -/
theorem c3_witness : (mkVM "t1").onDemandPrice = 0 :=
  (c3_unpriced_reported_as_zero envRejectAll "r"
      [{ mkVM "t1" with onDemandPrice := 5 }] [mkVM "t1"]
      ⟨[], [Req.batch ["t1"], Req.single "t1"]⟩ rfl).1
    (mkVM "t1") (List.mem_singleton.mpr rfl) rfl

/-- C5: every Price value returned by GetCurrentPrices carries the -1
sentinel as its OnDemandPrice and the retrieved per-zone spot prices of
its instance type in its SpotPrice field. -/
theorem c5_currentPrices_sentinel (env : Env) (region : String)
    (sp : List (String × SpotPriceInfo)) (m : List (String × Price))
    (hsp : getCurrentSpotPrices env region = .ok sp)
    (h : GetCurrentPrices env region = .ok m) :
    (∀ e ∈ m, e.2.onDemandPrice = -1) ∧
    (∀ e ∈ m, (e.1, e.2.spotPrice) ∈ sp) ∧
    (∀ s ∈ sp, (s.1, Price.mk (-1) s.2) ∈ m) := by
  rw [GetCurrentPrices, hsp] at h
  cases h
  refine ⟨?_, ?_, ?_⟩
  · intro e he
    obtain ⟨s, -, rfl⟩ := List.mem_map.mp he
    rfl
  · intro e he
    obtain ⟨s, hs, rfl⟩ := List.mem_map.mp he
    simpa using hs
  · intro s hs
    exact List.mem_map_of_mem _ hs

/-- C5 witness: the theorem applied to the envSpot run, whose single entry
pairs t1's zone-z1 spot price with the -1 on-demand sentinel. -/
theorem c5_witness :
    (("t1", Price.mk (-1) [("z1", (5 : Rat))]).1,
      ("t1", Price.mk (-1) [("z1", (5 : Rat))]).2.spotPrice) ∈
      [("t1", [("z1", (5 : Rat))])] := by
  obtain ⟨-, h2, -⟩ := c5_currentPrices_sentinel envSpot "r"
    [("t1", [("z1", (5 : Rat))])] [("t1", ⟨-1, [("z1", (5 : Rat))]⟩)] rfl rfl
  exact h2 ("t1", ⟨-1, [("z1", (5 : Rat))]⟩) (List.mem_singleton.mpr rfl)

/-- C8: every VMInfo in the list returned by GetVirtualMachines has a
non-empty Zones list — an instance type offered in no zone of the region
is filtered out before pricing and never appears in the result. -/
theorem c8_result_zones_nonempty (env : Env) (region : String)
    (l : List VMInfo) (h : GetVirtualMachines env region = .ok l) :
    ∀ vm ∈ l, vm.zones ≠ [] := by
  obtain ⟨its, zones, st, -, -, hod⟩ := getVirtualMachines_ok env region l h
  obtain ⟨-, hl⟩ := getOnDemandPrice_shape env _ region l st hod
  subst hl
  intro vm hvm
  obtain ⟨vm₀, hvm₀, rfl⟩ := List.mem_map.mp hvm
  obtain ⟨it, -, hbv⟩ := List.mem_filterMap.mp hvm₀
  obtain ⟨-, -, -, hzne⟩ := buildVM_some env zones it vm₀ hbv
  exact hzne

/-- C8 witness: the theorem applied to the envOk run, whose single result
VMInfo has the non-empty zone list ["z1"]. -/
theorem c8_witness : vmOkResult.zones ≠ [] :=
  c8_result_zones_nonempty envOk "r" [vmOkResult] rfl vmOkResult
    (List.mem_singleton.mpr rfl)

/-- C7 counterexample: for the unsupported service "foo" with an empty VM
list and a failing fetch, GetProducts returns the wrapped fetch error
rather than the unsupported-service error the claim promises. -/
theorem c7_counterexample :
    GetProducts envNoInst [] "foo" "r" =
      .err ⟨"failed to get products: DescribeInstanceTypes API call problem: boom",
        []⟩ ∧
    ("failed to get products: DescribeInstanceTypes API call problem: boom" ≠
      "invalid service: " ++ "foo") :=
  ⟨rfl, by decide⟩

/-- C7 (amended): when the provided VM list is non-empty or the fresh fetch
succeeds, GetProducts fails with the invalid-service error for every
service other than "ack" and "compute" and returns the list unchanged for
the supported ones; when the provided list is empty and the fetch fails,
the wrapped fetch error is returned instead, for every service. -/
theorem c7_service_switch (env : Env) (vms : List VMInfo)
    (service regionId : String) :
    (vms ≠ [] → (service = svcAck ∨ service = "compute") →
      GetProducts env vms service regionId = .ok vms) ∧
    (vms ≠ [] → service ≠ svcAck → service ≠ "compute" →
      GetProducts env vms service regionId =
        .err ⟨"invalid service: " ++ service, []⟩) ∧
    (∀ l, vms = [] → GetVirtualMachines env regionId = .ok l →
      ((service = svcAck ∨ service = "compute") →
        GetProducts env vms service regionId = .ok l) ∧
      (service ≠ svcAck → service ≠ "compute" →
        GetProducts env vms service regionId =
          .err ⟨"invalid service: " ++ service, []⟩)) ∧
    (∀ e, vms = [] → GetVirtualMachines env regionId = .err e →
      GetProducts env vms service regionId =
        .err (wrap "failed to get products" e)) := by
  refine ⟨?_, ?_, ?_, ?_⟩
  · intro hne hsvc
    have hlen : ¬(vms.length = 0) := by
      simpa [List.length_eq_zero] using hne
    rcases hsvc with hsvc | hsvc <;>
      simp [GetProducts, hlen, hsvc, svcAck]
  · intro hne h1 h2
    have hlen : ¬(vms.length = 0) := by
      simpa [List.length_eq_zero] using hne
    have h1' : service ≠ "ack" := h1
    simp [GetProducts, hlen, h1', h2, svcAck]
  · intro l hnil hgvm
    subst hnil
    constructor
    · intro hsvc
      rcases hsvc with hsvc | hsvc <;>
        simp [GetProducts, hgvm, hsvc, svcAck]
    · intro h1 h2
      have h1' : service ≠ "ack" := h1
      simp [GetProducts, hgvm, h1', h2, svcAck]
  · intro e hnil hgvm
    subst hnil
    simp [GetProducts, hgvm]

/-- C7 witness: the amended theorem applied at concrete inputs — a
non-empty list served for "ack", the invalid-service error for "foo", and
the wrapped fetch error when the list is empty and the fetch fails. -/
theorem c7_witness :
    GetProducts envNoInst [mkVM "t1"] "ack" "r" = .ok [mkVM "t1"] ∧
    GetProducts envNoInst [mkVM "t1"] "foo" "r" =
      .err ⟨"invalid service: " ++ "foo", []⟩ ∧
    GetProducts envNoInst [] "ack" "r" =
      .err (wrap "failed to get products"
        ⟨"DescribeInstanceTypes API call problem: boom", []⟩) := by
  refine ⟨?_, ?_, ?_⟩
  · exact (c7_service_switch envNoInst [mkVM "t1"] "ack" "r").1
      (by decide) (Or.inl rfl)
  · exact (c7_service_switch envNoInst [mkVM "t1"] "foo" "r").2.1
      (by decide) (by decide) (by decide)
  · exact (c7_service_switch envNoInst [] "ack" "r").2.2.2
      ⟨"DescribeInstanceTypes API call problem: boom", []⟩ rfl rfl

/-- C6 counterexample: zone enumeration succeeds, yet the whole
getCurrentSpotPrices call aborts because the spot-price-history response
of the single instance type t1 fails to unmarshal — so a zones failure is
not the only way the call aborts. -/
theorem c6_counterexample :
    getZones envSpotParse "r" = .ok [⟨"z1", ["t1"], []⟩] ∧
    getCurrentSpotPrices envSpotParse "r" = .error ⟨"bad json", []⟩ :=
  ⟨rfl, rfl⟩

/-- C6 (amended): a spot-price-history request that fails at the transport
level is absorbed — when no response fails to unmarshal, the retrieval
completes with whatever it could gather and every transport-failed
instance type is simply absent — and a failure to enumerate the region's
zones aborts the call; however a response that fails to unmarshal also
aborts the whole call. -/
theorem c6_spot_error_policy (env : Env) (region : String) :
    ((∀ it, isParse (env.describeSpotPriceHistory region it) = false) →
      ∀ zs, getZones env region = .ok zs →
      ∃ m, getCurrentSpotPrices env region = .ok m ∧
        ∀ it, isReq (env.describeSpotPriceHistory region it) = true →
          List.lookup it m = none) ∧
    (∀ e, getZones env region = .error e →
      getCurrentSpotPrices env region = .error e) := by
  constructor
  · intro hNoParse zs hz
    obtain ⟨m, h1, h2⟩ :=
      spotZonesLoop_ok env region hNoParse zs [] (fun it _ => rfl)
    refine ⟨m, ?_, h2⟩
    rw [getCurrentSpotPrices, hz]
    exact h1
  · intro e he
    rw [getCurrentSpotPrices, he]

/-- C6 witness: the amended theorem applied to envSpot (t2's transport
failure absorbed and t2 absent from the result) and to defaultEnv (zones
failure aborts with the wrapped error). -/
theorem c6_witness :
    List.lookup "t2" [("t1", [("z1", (5 : Rat))])] = none ∧
    getCurrentSpotPrices defaultEnv "r" =
      .error ⟨"DescribeZones API call problem: no zones endpoint", []⟩ := by
  constructor
  · obtain ⟨m, hm, hreq⟩ := (c6_spot_error_policy envSpot "r").1
      (by
        intro it
        by_cases h : it = "t1" <;> simp [envSpot, defaultEnv, isParse, h])
      [⟨"z1", ["t1", "t2"], []⟩] rfl
    have hme : m = [("t1", [("z1", (5 : Rat))])] := by
      have hev : getCurrentSpotPrices envSpot "r" =
          .ok [("t1", [("z1", (5 : Rat))])] := rfl
      rw [hev] at hm
      exact (Except.ok.inj hm).symm
    rw [← hme]
    exact hreq "t2" (by
      simp [envSpot, defaultEnv, isReq])
  · exact (c6_spot_error_policy defaultEnv "r").2
      ⟨"DescribeZones API call problem: no zones endpoint", []⟩ rfl

/-- C2: a batch rejected with the parameter-rejection error (message
"failed to get price" carrying the InvalidParameter label) triggers
exactly one single-item follow-up request per batch member — the trace
extends by the batch request followed by len(batch) single requests, one
per member in order — and the batch completes without failing even when
some single requests error; a batch failing with any other error makes
processBatch, and thereby the whole getOnDemandPrice fetch, abort with
that error. -/
theorem c2_param_rejection_fallback (env : Env) (region : String) :
    (∀ (batch : List String) (st : FetchState) (e : GoError),
      getPrice env batch region = .error e → isParamRejection e = true →
      (∀ t ∈ batch, ∀ ps, getPrice env [t] region = .ok ps → ps ≠ []) →
      ∃ st', processBatch env region batch st = .ok st' ∧
        st'.trace = st.trace ++ Req.batch batch :: batch.map Req.single) ∧
    (∀ (batch : List String) (st : FetchState) (e : GoError),
      getPrice env batch region = .error e → isParamRejection e = false →
      processBatch env region batch st = .err e) ∧
    (∀ (vms : List VMInfo) (e : GoError), vms ≠ [] → vms.length ≤ 25 →
      getPrice env (vms.map VMInfo.type) region = .error e →
      isParamRejection e = false →
      getOnDemandPrice env vms region = .err e) := by
  refine ⟨?_, ?_, ?_⟩
  · intro batch st e hgp hip hne
    obtain ⟨st', h1, h2, -⟩ := retryLoop_spec env region batch
      { st with trace := st.trace ++ [Req.batch batch] } hne
    refine ⟨st', ?_, ?_⟩
    · simp only [processBatch, hgp]
      rw [if_pos hip]
      exact h1
    · rw [h2]
      simp
  · intro batch st e hgp hnip
    exact processBatch_err env region batch st e hgp hnip
  · intro vms e hne hlen hgp hnip
    have htys : vms.map VMInfo.type ≠ [] := by
      simpa [List.map_eq_nil_iff] using hne
    have hbs : goBatches [] (vms.map VMInfo.type) = [vms.map VMInfo.type] := by
      apply goBatches_small _ [] htys
      simpa using hlen
    have hod : odLoop env region vms [] ⟨[], []⟩ = .err e := by
      rw [odLoop_eq_chunks, hbs, processChunks,
        processBatch_err env region _ _ e hgp hnip]
    rw [getOnDemandPrice, hod]

/-- C2 witness: in envC2 the rejected batch ["a"] ends ok with the trace
[batch ["a"], single "a"] — one follow-up per member even though that
single request errors — while the batch ["b"] failing with the transport
error "boom" aborts processBatch and the whole getOnDemandPrice run. -/
theorem c2_witness :
    traceOf (processBatch envC2 "r" ["a"] ⟨[], []⟩) =
      [Req.batch ["a"], Req.single "a"] ∧
    processBatch envC2 "r" ["b"] ⟨[], []⟩ = .err ⟨"boom", []⟩ ∧
    getOnDemandPrice envC2 [mkVM "b"] "r" = .err ⟨"boom", []⟩ := by
  obtain ⟨hA, hB, hC⟩ := c2_param_rejection_fallback envC2 "r"
  refine ⟨?_, ?_, ?_⟩
  · obtain ⟨st', h1, h2⟩ := hA ["a"] ⟨[], []⟩
      ⟨"failed to get price", ["InvalidParameter"]⟩ rfl rfl
      (by
        intro t ht ps hps
        rcases List.mem_singleton.mp ht with rfl
        simp [getPrice, envC2, defaultEnv] at hps)
    rw [h1]
    simp only [traceOf]
    rw [h2]
    rfl
  · exact hB ["b"] ⟨[], []⟩ ⟨"boom", []⟩ rfl rfl
  · exact hC [mkVM "b"] ⟨"boom", []⟩ (by decide) (by decide) rfl rfl

/-- C4: when the instance listing, the zone listing and the price service
behave (well-formed prices, every batch ok or parameter-rejected),
GetVirtualMachines succeeds — no hypothesis constrains the network mapper,
so a MappingError never fails the call — and every instance type offered
in some zone whose network-performance string cannot be mapped still
appears in the result; with the spec-modelled mapper contract (an
unmappable string yields a non-empty default tier), its VMInfo carries a
non-empty tier. -/
theorem c4_mapping_error_not_fatal (env : Env) (region : String)
    (its : List InstanceType) (zones : List Zone)
    (hits : getInstanceTypes env = .ok its)
    (hz : getZones env region = .ok zones)
    (hok : OkOrIP env region)
    (hwf : WFPrices env region)
    (hmap : ∀ s, ((env.mapNetworkPerf s).2).isSome = true →
      (env.mapNetworkPerf s).1 ≠ "") :
    ∃ l, GetVirtualMachines env region = .ok l ∧
      ∀ it ∈ its, vmZones zones it.instanceTypeId ≠ [] →
        ((env.mapNetworkPerf (fmtGbit it.instanceBandwidthRx)).2).isSome = true →
        ∃ vm ∈ l, vm.type = it.instanceTypeId ∧ vm.ntwPerfCat ≠ "" := by
  obtain ⟨st, hod⟩ := getOnDemandPrice_total env region hwf hok
    (its.filterMap (buildVM env zones))
  refine ⟨(its.filterMap (buildVM env zones)).map (fun vm =>
      { category := vm.category
        type := vm.type
        onDemandPrice := lookupD st.allPrices vm.type 0
        cpus := vm.cpus
        mem := vm.mem
        gpus := vm.gpus
        ntwPerf := vm.ntwPerf
        ntwPerfCat := vm.ntwPerfCat
        zones := vm.zones
        attributes := vm.attributes }),
    by simp only [GetVirtualMachines, hits, hz, hod], ?_⟩
  intro it hit hzn hsome
  obtain ⟨vm₀, hbv⟩ := buildVM_of_zones env zones it hzn
  obtain ⟨hty, -, hcat, -⟩ := buildVM_some env zones it vm₀ hbv
  have hmem0 : vm₀ ∈ its.filterMap (buildVM env zones) :=
    List.mem_filterMap.mpr ⟨it, hit, hbv⟩
  refine ⟨_, List.mem_map_of_mem _ hmem0, ?_, ?_⟩
  · exact hty
  · show vm₀.ntwPerfCat ≠ ""
    rw [hcat]
    exact hmap _ hsome

/-- C4 witness: in envOk the mapper reports a MappingError for every
string, yet GetVirtualMachines succeeds and t1's VMInfo carries the
non-empty default tier "unknown". -/
theorem c4_witness : vmOkResult.ntwPerfCat ≠ "" := by
  obtain ⟨l, hgvm, hs⟩ := c4_mapping_error_not_fatal envOk "r"
    [⟨"t1", 4, 8, 0, 1024000⟩] [⟨"z1", ["t1"], [["t1"]]⟩] rfl rfl
    (fun ts => Or.inl rfl)
    (by
      intro ts ps h
      have h2 : ts.map (fun _ => (3 : Rat)) = ps := Except.ok.inj h
      rw [← h2]
      simp)
    (fun s _ => by simp [envOk, defaultEnv])
  obtain ⟨vm, hvm, -, hne⟩ := hs ⟨"t1", 4, 8, 0, 1024000⟩
    (List.mem_singleton.mpr rfl) (by decide) rfl
  have heq : (FetchResult.ok l : FetchResult (List VMInfo)) =
      .ok [vmOkResult] := by
    rw [← hgvm]
    rfl
  rw [show l = [vmOkResult] by injection heq] at hvm
  rcases List.mem_singleton.mp hvm with rfl
  exact hne

/-- C1: for a non-empty VM list with distinct instance types and a
well-behaved price service, a completed getOnDemandPrice issues batch
requests that partition the instance-type list into consecutive batches of
at most 25 — only the last batch may be shorter — and the set of types
carrying a price in the final map is the input set minus exactly the types
whose retried single-item request also failed. -/
theorem c1_batch_partition_priced_set (env : Env) (region : String)
    (vms l : List VMInfo) (st : FetchState)
    (hne : vms ≠ [])
    (hnd : (vms.map VMInfo.type).Nodup)
    (hwf : WFPrices env region)
    (h : getOnDemandPrice env vms region = .ok (l, st)) :
    (batchReqs st.trace).flatten = vms.map VMInfo.type ∧
    (∀ b ∈ batchReqs st.trace, 0 < b.length ∧ b.length ≤ 25) ∧
    (∀ b ∈ (batchReqs st.trace).dropLast, b.length = 25) ∧
    (∀ t, mapMem st.allPrices t = true ↔
      (t ∈ vms.map VMInfo.type ∧
        ¬ retriedAndFailed env region (batchReqs st.trace) t)) := by
  obtain ⟨hod, -⟩ := getOnDemandPrice_shape env vms region l st h
  rw [odLoop_eq_chunks] at hod
  obtain ⟨hallok, htr, hmem⟩ := processChunks_spec env region hwf _ _ _ hod
  have htys : vms.map VMInfo.type ≠ [] := by
    simpa [List.map_eq_nil_iff] using hne
  have hbr : batchReqs st.trace = goBatches [] (vms.map VMInfo.type) := by
    simpa [batchReqs] using htr
  have hflat : (goBatches [] (vms.map VMInfo.type)).flatten =
      vms.map VMInfo.type := by
    simpa using goBatches_flatten (vms.map VMInfo.type) [] htys
  refine ⟨by rw [hbr, hflat], ?_, ?_, ?_⟩
  · rw [hbr]
    exact goBatches_bound (vms.map VMInfo.type) [] (by decide)
  · rw [hbr]
    exact goBatches_full (vms.map VMInfo.type) []
  · intro t
    rw [hbr]
    have hmem' : mapMem st.allPrices t = true ↔
        ∃ b ∈ goBatches [] (vms.map VMInfo.type), t ∈ b ∧
          pricedInBatch env region b t := by
      rw [hmem t]
      simp [mapMem]
    rw [hmem']
    constructor
    · rintro ⟨b, hb, htb, hpr⟩
      constructor
      · rw [← hflat]
        exact List.mem_flatten.mpr ⟨b, hb, htb⟩
      · rintro ⟨b', hb', htb', hip', hfail⟩
        have hbb : b = b' := flatten_nodup_unique _
          (by rw [hflat]; exact hnd) b hb b' hb' t htb htb'
        subst hbb
        rcases hpr with hok1 | ⟨-, hok2⟩
        · exact exOk_not_exErrIP _ hok1 hip'
        · rw [hok2] at hfail
          cases hfail
    · rintro ⟨hty, hnr⟩
      rw [← hflat] at hty
      obtain ⟨b, hb, htb⟩ := List.mem_flatten.mp hty
      refine ⟨b, hb, htb, ?_⟩
      rcases hallok b hb with hok1 | hip1
      · exact Or.inl hok1
      · by_cases hs : exOk (getPrice env [t] region) = true
        · exact Or.inr ⟨hip1, hs⟩
        · have hfalse : exOk (getPrice env [t] region) = false := by
            cases hexo : exOk (getPrice env [t] region)
            · rfl
            · exact absurd hexo hs
          exact absurd (show retriedAndFailed env region
            (goBatches [] (vms.map VMInfo.type)) t from
            ⟨b, hb, htb, hip1, hfalse⟩) hnr

/-- C1 witness: the theorem applied to the single-type envAllOkPrices run,
whose one batch request ["t1"] partitions the input ["t1"]. -/
theorem c1_witness : (batchReqs [Req.batch ["t1"]]).flatten = ["t1"] := by
  have h := c1_batch_partition_priced_set envAllOkPrices "r" [mkVM "t1"]
    [{ mkVM "t1" with onDemandPrice := 3 }] ⟨[("t1", 3)], [Req.batch ["t1"]]⟩
    (by decide) (by decide)
    (by
      intro ts ps h
      have h2 : ts.map (fun _ => (3 : Rat)) = ps := Except.ok.inj h
      rw [← h2]
      simp)
    rfl
  exact h.1

end Alibaba
